import Mathlib

/-!
Verification of the helper utilities in `src/helpers.py` of the
TransformerSum repository: whitespace tokenization, n-gram extraction,
trigram blocking, word n-grams over multiple sentences, JSON loading
dispatch, and list padding.  Each Python function is shallowly embedded
as an executable Lean definition, and the specified properties are
proved about those definitions.
-/

namespace TransformerSum

/-- Accumulator-based whitespace splitter: CPython `str.split()` with no
arguments splits on runs of whitespace and never produces empty tokens.
The accumulator holds the current token reversed. -/
def splitWS : List Char → List Char → List (List Char)
  | [], acc => if acc.isEmpty then [] else [acc.reverse]
  | ch :: cs, acc =>
    if ch.isWhitespace then
      if acc.isEmpty then splitWS cs [] else acc.reverse :: splitWS cs []
    else splitWS cs (ch :: acc)

/-- Embedding of Python `s.split()` (no separator argument): tokenize a
string on whitespace runs, dropping empty tokens.  Tokens are `List Char`. -/
def pySplit (s : String) : List (List Char) := splitWS s.toList []

/-- Embedding of `_get_ngrams(n, text)` (src/helpers.py lines 69-84):
`ngram_set = set(); for i in range(text_length - n + 1): ngram_set.add(tuple(text[i:i+n]))`.
Python `range(text_length - n + 1)` is empty when `text_length < n`; the Nat
expression `text.length + 1 - n` yields the same index range.  The Python
tuple `text[i:i+n]` is `(text.drop i).take n`, and the Python `set` is a
`Finset`. -/
def _get_ngrams {α : Type} [DecidableEq α] (n : Nat) (text : List α) : Finset (List α) :=
  ((List.range (text.length + 1 - n)).map (fun i => (text.drop i).take n)).toFinset

/-- Embedding of `block_trigrams(c, p)` (src/helpers.py lines 61-67): compute
the candidate's trigram set, then loop over the accepted spans and return
`True` as soon as one shares a trigram (`len(tri_c.intersection(tri_s)) > 0`),
else `False`.  The early-returning Python loop over `p` is `List.any`. -/
def block_trigrams (c : String) (p : List String) : Bool :=
  let tri_c := _get_ngrams 3 (pySplit c)
  p.any fun s => decide (0 < (tri_c ∩ _get_ngrams 3 (pySplit s)).card)

/-- Embedding of `_get_word_ngrams(n, sentences)` (src/helpers.py lines 87-97):
`assert len(sentences) > 0; assert n > 0; words = sum(sentences, []);
return _get_ngrams(n, words)`.  A failed `assert` raises, modelled by `none`.
Python `sum(sentences, [])` is a left fold of list concatenation starting
from the empty list. -/
def _get_word_ngrams {α : Type} [DecidableEq α] (n : Nat) (sentences : List (List α)) :
    Option (Finset (List α)) :=
  if 0 < sentences.length ∧ 0 < n then
    some (_get_ngrams n (sentences.foldl (· ++ ·) []))
  else
    none

/-- Python `list.rfind`-style search used by `os.path.splitext`: the index of
the last occurrence of `c`, or `-1` when absent. -/
def rfindChar (c : Char) (l : List Char) : Int :=
  match (l.reverse).findIdx? (fun x => x == c) with
  | none => -1
  | some j => ((l.length - 1 - j : Nat) : Int)

/-- Embedding of CPython `posixpath.splitext` as used by `load_json`:
with `sepIndex = p.rfind('/')` and `dotIndex = p.rfind('.')`, split at
`dotIndex` when `dotIndex > sepIndex` and some character strictly between
`sepIndex` and `dotIndex` is not a dot (leading dots of the basename are
ignored); otherwise the extension is empty. -/
def splitext (p : String) : String × String :=
  let l := p.toList
  let sepIndex := rfindChar '/' l
  let dotIndex := rfindChar '.' l
  if sepIndex < dotIndex then
    let dotN := dotIndex.toNat
    let fnN := (sepIndex + 1).toNat
    if (List.range dotN).any (fun i => decide (fnN ≤ i) && (l.getD i '.' != '.')) then
      ((l.take dotN).asString, (l.drop dotN).asString)
    else
      (p, "")
  else
    (p, "")

/-- Embedding of `load_json(json_file)` (src/helpers.py lines 10-30).  File
reading is abstracted by the parameters `readJsonFile` and `readGzFile`
(the parsed documents produced from a path).  The result carries the list
of logged error messages and either a normal return value
`(documents, file_path)` or a raised exception described by a string.  In
the branch where the extension is neither ".json" nor ".gz", the Python
local variable `documents` is never assigned, so CPython raises
`UnboundLocalError` when `return documents, file_path` executes, after the
`logger.error(...)` call has run. -/
def load_json {Docs : Type} (readJsonFile readGzFile : String → Docs) (json_file : String) :
    List String × Except String (Option Docs × String) :=
  let fp := splitext json_file
  let file_path := fp.1
  let file_extension := fp.2
  if file_extension = ".json" then
    ([], Except.ok (some (readJsonFile json_file), file_path))
  else if file_extension = ".gz" then
    ([], Except.ok (some (readGzFile json_file), (splitext file_path).1))
  else
    (["File extension " ++ file_extension ++
        " not recognized. Please use either '.json' or '.gz'."],
     Except.error "UnboundLocalError: local variable 'documents' referenced before assignment")

/-- Python `max(len(d) for d in data)`: `none` models the `ValueError`
raised by `max` on an empty sequence. -/
def maxWidth {α : Type} (data : List (List α)) : Option Nat :=
  match data with
  | [] => none
  | _ => some ((data.map List.length).foldr max 0)

/-- Embedding of `pad(data, pad_id, width, pad_on_left)` (src/helpers.py
lines 100-108).  Python `if not width` is taken when `width` is `None` or
`0`, in which case `width` defaults to the maximum element length (raising
on empty `data`, modelled by `none`).  Python `[pad_id] * k` with `k <= 0`
is the empty list, matching Nat subtraction in `List.replicate`. -/
def pad {α : Type} (data : List (List α)) ( pad_id : α) (width : Option Nat)
    ( pad_on_left : Bool) : Option (List (List α)) :=
  let wOpt : Option Nat :=
    match width with
    | none => maxWidth data
    | some 0 => maxWidth data
    | some w => some w
  match wOpt with
  | none => none
  | some w =>
    if pad_on_left then
      some (data.map fun d => List.replicate (w - d.length) pad_id ++ d)
    else
      some (data.map fun d => d ++ List.replicate (w - d.length) pad_id)

/-- `block_trigrams` returns `true` exactly when some accepted span shares a
trigram with the candidate. -/
theorem block_trigrams_eq_true (c : String) (p : List String) :
    block_trigrams c p = true ↔
      ∃ s ∈ p, ((_get_ngrams 3 (pySplit c)) ∩ (_get_ngrams 3 (pySplit s))).Nonempty := by
  simp only [block_trigrams, List.any_eq_true, decide_eq_true_eq, Finset.card_pos]

/-- The trigram at position 0 is in the trigram set of any token list of
length at least 3. -/
theorem take_three_mem_get_ngrams {α : Type} [DecidableEq α] (text : List α)
    (h : 3 ≤ text.length) : text.take 3 ∈ _get_ngrams 3 text := by
  unfold _get_ngrams
  simp only [List.mem_toFinset, List.mem_map, List.mem_range]
  exact ⟨0, by omega, by simp⟩

/-- C1: `block_trigrams c p` is true iff the candidate's trigram set meets the
trigram set of at least one accepted span; in particular, for the candidate
"the cat sat on the mat" and the single accepted span
"the cat sat near a tree" the result is true. -/
theorem c1_block_trigrams_iff_shared_trigram :
    (∀ (c : String) (p : List String),
      block_trigrams c p = true ↔
        ∃ s ∈ p, ((_get_ngrams 3 (pySplit c)) ∩ (_get_ngrams 3 (pySplit s))).Nonempty) ∧
    block_trigrams "the cat sat on the mat" ["the cat sat near a tree"] = true := by
  refine ⟨fun c p => block_trigrams_eq_true c p, ?_⟩
  rfl

/-- C2: a candidate with fewer than 3 whitespace tokens has an empty trigram
set, and `block_trigrams` returns false on it for every accepted-span list. -/
theorem c2_block_trigrams_short_candidate (c : String) (p : List String)
    (h : (pySplit c).length < 3) :
    _get_ngrams 3 (pySplit c) = ∅ ∧ block_trigrams c p = false := by
  have he : _get_ngrams 3 (pySplit c) = ∅ := by
    unfold _get_ngrams
    have h0 : (pySplit c).length + 1 - 3 = 0 := by omega
    simp [h0]
  refine ⟨he, ?_⟩
  simp only [block_trigrams, he, Finset.empty_inter, Finset.card_empty, lt_self_iff_false,
    decide_False, List.any_eq_false]
  intro s _
  simp

/-- Witness for C2 at the concrete spec case: `candidate = "ab"`,
`accepted_spans = ["ab cd ef"]`. -/
theorem c2_block_trigrams_short_candidate_witness :
    (pySplit "ab").length < 3 ∧
      (_get_ngrams 3 (pySplit "ab") = ∅ ∧ block_trigrams "ab" ["ab cd ef"] = false) :=
  ⟨by decide, c2_block_trigrams_short_candidate "ab" ["ab cd ef"] (by decide)⟩

/-- C3: with an empty accepted-span list, `block_trigrams` returns false for
every candidate. -/
theorem c3_block_trigrams_empty_spans (c : String) : block_trigrams c [] = false := rfl

/-- C4: a candidate with at least 3 whitespace tokens that is
character-for-character equal to some accepted span is blocked. -/
theorem c4_block_trigrams_self_blocked (c : String) (p : List String)
    (h3 : 3 ≤ (pySplit c).length) (hmem : c ∈ p) :
    block_trigrams c p = true := by
  rw [block_trigrams_eq_true]
  have ht := take_three_mem_get_ngrams (pySplit c) h3
  exact ⟨c, hmem, (pySplit c).take 3, Finset.mem_inter.mpr ⟨ht, ht⟩⟩

/-- Witness for C4 at `candidate = "a b c"`, `accepted_spans = ["a b c"]`. -/
theorem c4_block_trigrams_self_blocked_witness :
    3 ≤ (pySplit "a b c").length ∧ "a b c" ∈ ["a b c"] ∧
      block_trigrams "a b c" ["a b c"] = true :=
  ⟨by decide, by simp,
    c4_block_trigrams_self_blocked "a b c" ["a b c"] (by decide) (by simp)⟩

/-- C5: permuting the accepted-span list never changes the boolean result of
`block_trigrams`. -/
theorem c5_block_trigrams_perm_invariant (c : String) (p p' : List String)
    (h : p.Perm p') : block_trigrams c p = block_trigrams c p' := by
  rw [Bool.eq_iff_iff, block_trigrams_eq_true, block_trigrams_eq_true]
  constructor
  · rintro ⟨s, hs, hn⟩
    exact ⟨s, h.mem_iff.mp hs, hn⟩
  · rintro ⟨s, hs, hn⟩
    exact ⟨s, h.mem_iff.mpr hs, hn⟩

/-- Witness for C5 at a concrete two-element permutation. -/
theorem c5_block_trigrams_perm_invariant_witness :
    (["a b c", "x"] : List String).Perm ["x", "a b c"] ∧
      block_trigrams "a b c" ["a b c", "x"] = block_trigrams "a b c" ["x", "a b c"] :=
  ⟨List.Perm.swap "x" "a b c" [],
    c5_block_trigrams_perm_invariant "a b c" ["a b c", "x"] ["x", "a b c"]
      (List.Perm.swap "x" "a b c" [])⟩

/-- C6: `block_trigrams` is extensionally deterministic: equal candidate and
equal accepted-span list give equal boolean results.  As a total Lean
function it reads only its arguments and keeps no state across calls. -/
theorem c6_block_trigrams_deterministic (c c' : String) (p p' : List String)
    (hc : c = c') (hp : p = p') : block_trigrams c p = block_trigrams c' p' := by
  rw [hc, hp]

/-- Witness for C6 at concrete equal arguments. -/
theorem c6_block_trigrams_deterministic_witness :
    "a b c" = "a b c" ∧ (["a b c"] : List String) = ["a b c"] ∧
      block_trigrams "a b c" ["a b c"] = block_trigrams "a b c" ["a b c"] :=
  ⟨rfl, rfl, c6_block_trigrams_deterministic "a b c" "a b c" ["a b c"] ["a b c"] rfl rfl⟩

/-- C9: blocking is monotone in the accepted-span list: appending further
spans on either side never unblocks a blocked candidate. -/
theorem c9_block_trigrams_monotone (c : String) (p q : List String)
    (h : block_trigrams c p = true) :
    block_trigrams c (p ++ q) = true ∧ block_trigrams c (q ++ p) = true := by
  rw [block_trigrams_eq_true] at h
  obtain ⟨s, hs, hn⟩ := h
  constructor
  · rw [block_trigrams_eq_true]
    exact ⟨s, List.mem_append.mpr (Or.inl hs), hn⟩
  · rw [block_trigrams_eq_true]
    exact ⟨s, List.mem_append.mpr (Or.inr hs), hn⟩

/-- Witness for C9 at `c = "a b c"`, `p = ["a b c"]`, `q = ["z"]`. -/
theorem c9_block_trigrams_monotone_witness :
    block_trigrams "a b c" ["a b c"] = true ∧
      (block_trigrams "a b c" (["a b c"] ++ ["z"]) = true ∧
        block_trigrams "a b c" (["z"] ++ ["a b c"]) = true) :=
  ⟨by decide, c9_block_trigrams_monotone "a b c" ["a b c"] ["z"] (by decide)⟩

/-- C7 counterexample: at the concrete path "data.txt" (last extension
".txt", neither ".json" nor ".gz"), `load_json` does not return a pair with
`none` as the documents component: the `return documents, file_path`
statement raises `UnboundLocalError`, because the local `documents` was
never assigned in that branch.  The error is logged first. -/
theorem c7_load_json_txt_raises :
    (load_json (fun _ => (0 : Nat)) (fun _ => 0) "data.txt").2 ≠
        Except.ok (none, "data") ∧
      load_json (fun _ => (0 : Nat)) (fun _ => 0) "data.txt" =
        (["File extension .txt not recognized. Please use either '.json' or '.gz'."],
         Except.error "UnboundLocalError: local variable 'documents' referenced before assignment") := by
  constructor
  · intro h
    exact Except.noConfusion h
  · rfl

/-- C7 (amended): when the last extension of the path is neither ".json" nor
".gz", `load_json` logs an error message and then raises `UnboundLocalError`
at the return statement instead of returning. -/
theorem c7_load_json_unrecognized_extension {Docs : Type}
    (readJsonFile readGzFile : String → Docs) (json_file : String)
    (h1 : (splitext json_file).2 ≠ ".json") (h2 : (splitext json_file).2 ≠ ".gz") :
    load_json readJsonFile readGzFile json_file =
      (["File extension " ++ (splitext json_file).2 ++
          " not recognized. Please use either '.json' or '.gz'."],
       Except.error "UnboundLocalError: local variable 'documents' referenced before assignment") := by
  unfold load_json
  simp only [if_neg h1, if_neg h2]

/-- Witness for the amended C7 at the concrete path "data.txt". -/
theorem c7_load_json_unrecognized_extension_witness :
    (splitext "data.txt").2 ≠ ".json" ∧ (splitext "data.txt").2 ≠ ".gz" ∧
      load_json (fun _ => (0 : Nat)) (fun _ => 0) "data.txt" =
        (["File extension " ++ (splitext "data.txt").2 ++
            " not recognized. Please use either '.json' or '.gz'."],
         Except.error "UnboundLocalError: local variable 'documents' referenced before assignment") :=
  ⟨by decide, by decide,
    c7_load_json_unrecognized_extension (fun _ => (0 : Nat)) (fun _ => 0) "data.txt"
      (by decide) (by decide)⟩

/-- Folding list concatenation from an accumulator concatenates the
accumulator with the flattened list. -/
theorem foldl_append_eq_flatten {α : Type} (l : List (List α)) (acc : List α) :
    l.foldl (· ++ ·) acc = acc ++ l.flatten := by
  induction l generalizing acc with
  | nil => simp
  | cons hd tl ih => simp [ih, List.append_assoc]

/-- C8: for positive `n` and non-empty `sentences`, `_get_word_ngrams`
returns the n-grams of the left-to-right concatenation of all the token
sequences. -/
theorem c8_get_word_ngrams_eq_ngrams_of_concat {α : Type} [DecidableEq α]
    (n : Nat) (sentences : List (List α)) (hn : 0 < n) (hs : sentences ≠ []) :
    _get_word_ngrams n sentences = some (_get_ngrams n sentences.flatten) := by
  have hlen : 0 < sentences.length := List.length_pos.mpr hs
  unfold _get_word_ngrams
  rw [if_pos ⟨hlen, hn⟩, foldl_append_eq_flatten, List.nil_append]

/-- Witness for C8 at `n = 2`, `sentences = [[1, 2], [3]]`. -/
theorem c8_get_word_ngrams_eq_ngrams_of_concat_witness :
    0 < 2 ∧ ([[1, 2], [3]] : List (List Nat)) ≠ [] ∧
      _get_word_ngrams 2 ([[1, 2], [3]] : List (List Nat)) =
        some (_get_ngrams 2 ([[1, 2], [3]] : List (List Nat)).flatten) :=
  ⟨by decide, by decide,
    c8_get_word_ngrams_eq_ngrams_of_concat 2 [[1, 2], [3]] (by decide) (by decide)⟩

/-- Every element's length is bounded by the folded maximum of the lengths. -/
theorem length_le_foldr_max {α : Type} (data : List (List α)) (d : List α)
    (hd : d ∈ data) : d.length ≤ (data.map List.length).foldr max 0 := by
  induction data with
  | nil => cases hd
  | cons a l ih =>
    rcases List.mem_cons.mp hd with rfl | hd
    · exact le_max_left _ _
    · exact le_trans (ih hd) (le_max_right _ _)

/-- Elementwise description of the padded list produced by `pad`: an element
at least as long as the width is unchanged, a shorter one gains
`w - length` copies of the pad value on the chosen side. -/
theorem pad_output_spec {α : Type} (data : List (List α)) (padId : α) (w : Nat)
    (pol : Bool) (out : List (List α))
    (hout : out = data.map fun d =>
      if pol then List.replicate (w - d.length) padId ++ d
      else d ++ List.replicate (w - d.length) padId) :
    out.length = data.length ∧
      ∀ i, i < data.length →
        (w ≤ (data.getD i []).length → out.getD i [] = data.getD i []) ∧
        ((data.getD i []).length < w →
          out.getD i [] =
            if pol then List.replicate (w - (data.getD i []).length) padId ++ data.getD i []
            else data.getD i [] ++ List.replicate (w - (data.getD i []).length) padId) := by
  subst hout
  refine ⟨by simp, ?_⟩
  intro i hi
  have hma : ∀ f : List α → List α, (data.map f).getD i [] = f (data.getD i []) := by
    intro f
    rw [List.getD_eq_getElem _ _ (by simpa using hi), List.getElem_map,
      List.getD_eq_getElem _ _ hi]
  constructor
  · intro hle
    rw [hma]
    have h0 : w - (data.getD i []).length = 0 := Nat.sub_eq_zero_of_le hle
    rw [h0]
    cases pol <;> simp
  · intro _
    rw [hma]

/-- When the width is the folded maximum length, every padded element has
exactly that length. -/
theorem pad_default_all_max {α : Type} (data : List (List α)) (padId : α)
    (pol : Bool) (out : List (List α))
    (hout : out = data.map fun d =>
      if pol then
        List.replicate ((data.map List.length).foldr max 0 - d.length) padId ++ d
      else
        d ++ List.replicate ((data.map List.length).foldr max 0 - d.length) padId) :
    ∀ o ∈ out, o.length = (data.map List.length).foldr max 0 := by
  subst hout
  intro o ho
  obtain ⟨d, hd, rfl⟩ := List.mem_map.mp ho
  have hle := length_le_foldr_max data d hd
  cases pol <;> simp <;> omega

/-- C10: `pad` never truncates: on non-empty `data` it returns an output of
the same length in which each element at least as long as the effective
width is unchanged at its position, each shorter element is extended with
`width - length` copies of `pad_id` on the chosen side, and when `width` is
`None` or `0` the effective width is the maximum element length, so every
output element then has exactly that length. -/
theorem c10_pad_never_truncates {α : Type} (data : List (List α)) (padId : α)
    (width : Option Nat) (padOnLeft : Bool) (hne : data ≠ []) :
    ∃ w out, pad data padId width padOnLeft = some out ∧
      ((width = none ∨ width = some 0) → w = (data.map List.length).foldr max 0) ∧
      (∀ w0 : Nat, width = some w0 → w0 ≠ 0 → w = w0) ∧
      out.length = data.length ∧
      (∀ i, i < data.length →
        (w ≤ (data.getD i []).length → out.getD i [] = data.getD i []) ∧
        ((data.getD i []).length < w →
          out.getD i [] =
            if padOnLeft then
              List.replicate (w - (data.getD i []).length) padId ++ data.getD i []
            else
              data.getD i [] ++ List.replicate (w - (data.getD i []).length) padId)) ∧
      ((width = none ∨ width = some 0) →
        ∀ o ∈ out, o.length = (data.map List.length).foldr max 0) := by
  obtain ⟨a, l, rfl⟩ : ∃ a l, data = a :: l := by
    cases data with
    | nil => exact absurd rfl hne
    | cons a l => exact ⟨a, l, rfl⟩
  rcases width with _ | (_ | w0)
  · refine ⟨((a :: l).map List.length).foldr max 0,
      (a :: l).map fun d =>
        if padOnLeft then
          List.replicate (((a :: l).map List.length).foldr max 0 - d.length) padId ++ d
        else
          d ++ List.replicate (((a :: l).map List.length).foldr max 0 - d.length) padId,
      ?_, fun _ => rfl, fun w0 h => Option.noConfusion h, ?_, ?_, fun _ =>
        pad_default_all_max (a :: l) padId padOnLeft _ rfl⟩
    · cases padOnLeft <;> rfl
    · exact (pad_output_spec (a :: l) padId _ padOnLeft _ rfl).1
    · exact (pad_output_spec (a :: l) padId _ padOnLeft _ rfl).2
  · refine ⟨((a :: l).map List.length).foldr max 0,
      (a :: l).map fun d =>
        if padOnLeft then
          List.replicate (((a :: l).map List.length).foldr max 0 - d.length) padId ++ d
        else
          d ++ List.replicate (((a :: l).map List.length).foldr max 0 - d.length) padId,
      ?_, fun _ => rfl, fun w0 h h0 => absurd (Option.some.inj h).symm h0, ?_, ?_, fun _ =>
        pad_default_all_max (a :: l) padId padOnLeft _ rfl⟩
    · cases padOnLeft <;> rfl
    · exact (pad_output_spec (a :: l) padId _ padOnLeft _ rfl).1
    · exact (pad_output_spec (a :: l) padId _ padOnLeft _ rfl).2
  · refine ⟨w0 + 1,
      (a :: l).map fun d =>
        if padOnLeft then List.replicate (w0 + 1 - d.length) padId ++ d
        else d ++ List.replicate (w0 + 1 - d.length) padId,
      ?_, ?_, fun w1 h _ => Option.some.inj h, ?_, ?_, ?_⟩
    · cases padOnLeft <;> rfl
    · rintro (h | h)
      · exact Option.noConfusion h
      · exact absurd (Option.some.inj h) (Nat.succ_ne_zero w0)
    · exact (pad_output_spec (a :: l) padId _ padOnLeft _ rfl).1
    · exact (pad_output_spec (a :: l) padId _ padOnLeft _ rfl).2
    · rintro (h | h)
      · exact Option.noConfusion h
      · exact absurd (Option.some.inj h) (Nat.succ_ne_zero w0)

/-- Witness for C10 at `data = [[1], [2, 3]]`, `pad_id = 0`,
`width = None`, `pad_on_left = false`. -/
theorem c10_pad_never_truncates_witness :
    ([[1], [2, 3]] : List (List Nat)) ≠ [] ∧
      ∃ w out, pad ([[1], [2, 3]] : List (List Nat)) 0 none false = some out ∧
        (((none : Option Nat) = none ∨ (none : Option Nat) = some 0) →
          w = (([[1], [2, 3]] : List (List Nat)).map List.length).foldr max 0) ∧
        (∀ w0 : Nat, (none : Option Nat) = some w0 → w0 ≠ 0 → w = w0) ∧
        out.length = ([[1], [2, 3]] : List (List Nat)).length ∧
        (∀ i, i < ([[1], [2, 3]] : List (List Nat)).length →
          (w ≤ (([[1], [2, 3]] : List (List Nat)).getD i []).length →
            out.getD i [] = ([[1], [2, 3]] : List (List Nat)).getD i []) ∧
          ((([[1], [2, 3]] : List (List Nat)).getD i []).length < w →
            out.getD i [] =
              if false then
                List.replicate (w - (([[1], [2, 3]] : List (List Nat)).getD i []).length) 0 ++
                  ([[1], [2, 3]] : List (List Nat)).getD i []
              else
                ([[1], [2, 3]] : List (List Nat)).getD i [] ++
                  List.replicate (w - (([[1], [2, 3]] : List (List Nat)).getD i []).length) 0)) ∧
        (((none : Option Nat) = none ∨ (none : Option Nat) = some 0) →
          ∀ o ∈ out, o.length = (([[1], [2, 3]] : List (List Nat)).map List.length).foldr max 0) :=
  ⟨by decide, c10_pad_never_truncates [[1], [2, 3]] 0 none false (by decide)⟩

end TransformerSum
